import Mathlib

/-!
Verification of the accounting core of the smart-village-management-system
backend (`app/services/accounting_service.py`, `payment_service.py`,
`invoice_service.py`, `reconciliation_service.py` and the SQLAlchemy models
they operate on), as a shallow embedding in Lean 4.

Monetary amounts (Python `Decimal` / `float`) are embedded as `ℚ`;
database rows are lists of structures; each service method becomes a pure
function from state to state, returning `Except` for the error paths that
raise `ValueError` in the source.
-/

namespace SVM

/-- Python `min` on two rationals. -/
def pyMin (a b : ℚ) : ℚ := if a ≤ b then a else b

/-- Python `max` on two rationals. -/
def pyMax (a b : ℚ) : ℚ := if a ≤ b then b else a

/-- Python `abs` on a rational. -/
def pyAbs (a : ℚ) : ℚ := if a < 0 then -a else a

/-- `BalanceType` from `app/models/accounting.py` (normal balance of an account). -/
inductive BalanceType where
  | DEBIT
  | CREDIT
deriving DecidableEq, Repr

/-- `AccountType` from `app/models/accounting.py`. -/
inductive AccountType where
  | ASSET
  | LIABILITY
  | EQUITY
  | REVENUE
  | EXPENSE
deriving DecidableEq, Repr

/-- `JournalEntryStatus` from `app/models/accounting.py`. -/
inductive JournalEntryStatus where
  | DRAFT
  | POSTED
  | REVERSED
deriving DecidableEq, Repr

/-- A row of `chart_of_accounts` (the fields the verified services read). -/
structure ChartOfAccounts where
  id : Nat
  account_type : AccountType
  balance_type : BalanceType
deriving DecidableEq, Repr

/-- Python `datetime` at minute precision: calendar fields plus time-of-day
in minutes.  Comparison of two datetimes is lexicographic. -/
structure PyDateTime where
  year : Nat
  month : Nat
  day : Nat
  minute : Nat
deriving DecidableEq, Repr

/-- Lexicographic `≤` on datetimes (Python datetime comparison). -/
def PyDateTime.le (a b : PyDateTime) : Bool :=
  if a.year < b.year then true
  else if b.year < a.year then false
  else if a.month < b.month then true
  else if b.month < a.month then false
  else if a.day < b.day then true
  else if b.day < a.day then false
  else if a.minute ≤ b.minute then true
  else false

/-- Gregorian leap year (what `datetime`/`timedelta` arithmetic follows). -/
def isLeapYear (y : Nat) : Bool :=
  (y % 4 == 0 && y % 100 != 0) || y % 400 == 0

/-- Number of days of month `m` of year `y`. -/
def daysInMonth (y m : Nat) : Nat :=
  if m = 2 then (if isLeapYear y then 29 else 28)
  else if m = 4 ∨ m = 6 ∨ m = 9 ∨ m = 11 then 30
  else 31

/-- `t - timedelta(days=1)` for a `datetime`. -/
def PyDateTime.subOneDay (t : PyDateTime) : PyDateTime :=
  if 1 < t.day then { t with day := t.day - 1 }
  else if 1 < t.month then
    { t with month := t.month - 1, day := daysInMonth t.year (t.month - 1) }
  else
    { year := t.year - 1, month := 12, day := 31, minute := t.minute }

/-- A row of `accounting_periods` (the fields the services use).  The `id`
stands for the database-generated primary key. -/
structure AccountingPeriod where
  id : Nat
  period_name : String
  period_type : String
  fiscal_year : Nat
  start_date : PyDateTime
  end_date : PyDateTime
  is_closed : Bool
deriving DecidableEq, Repr

/-- `f"{year}-{month:02d}"`. -/
def monthPeriodName (y m : Nat) : String :=
  toString y ++ "-" ++ (if m < 10 then "0" ++ toString m else toString m)

/-- `AccountingService._create_monthly_period`: builds the calendar-month
period of `transaction_date`; the period end is
`datetime(year, month+1, 1) - timedelta(days=1)`, i.e. midnight of the last
day of the month. -/
def createMonthlyPeriod (next_id : Nat) (t : PyDateTime) : AccountingPeriod :=
  let start_date : PyDateTime := ⟨t.year, t.month, 1, 0⟩
  let end_date : PyDateTime :=
    if t.month = 12 then PyDateTime.subOneDay ⟨t.year + 1, 1, 1, 0⟩
    else PyDateTime.subOneDay ⟨t.year, t.month + 1, 1, 0⟩
  { id := next_id
    period_name := monthPeriodName t.year t.month
    period_type := "MONTHLY"
    fiscal_year := t.year
    start_date := start_date
    end_date := end_date
    is_closed := false }

/-- `AccountingService.get_current_period`: first open period whose
`[start_date, end_date]` contains the date; when none exists the monthly
period is created and committed.  Returns the (possibly grown) period table
together with the period handed back to the caller. -/
def getCurrentPeriod (periods : List AccountingPeriod) (next_id : Nat)
    (t : PyDateTime) : List AccountingPeriod × AccountingPeriod :=
  match periods.find? (fun p =>
      p.start_date.le t && t.le p.end_date && !p.is_closed) with
  | some p => (periods, p)
  | none =>
    let p := createMonthlyPeriod next_id t
    (periods ++ [p], p)

/-- A row of `journal_entry_lines`. -/
structure JournalEntryLine where
  line_number : Nat
  account_id : Nat
  debit_amount : ℚ
  credit_amount : ℚ
deriving DecidableEq, Repr

/-- A row of `journal_entries` (the fields the services use). -/
structure JournalEntry where
  id : Nat
  status : JournalEntryStatus
  total_debit : ℚ
  total_credit : ℚ
  period_id : Nat
  posted_at : Option Nat
  lines : List JournalEntryLine
deriving DecidableEq, Repr

/-- A row of `general_ledger`. -/
structure GeneralLedger where
  account_id : Nat
  period_id : Nat
  beginning_balance : ℚ
  ending_balance : ℚ
  debit_total : ℚ
  credit_total : ℚ
deriving DecidableEq, Repr

/-- Errors raised (`ValueError`) by the accounting service. -/
inductive AccErr where
  | tooFewLines
  | lineBothDebitAndCredit
  | lineNeitherDebitNorCredit
  | unbalanced
  | entryNotFound
  | onlyDraftCanBePosted
  | accountMissing
deriving DecidableEq, Repr

/-- One element of the `lines` argument of `create_journal_entry`
(`line.get('debit_amount', 0)` / `line.get('credit_amount', 0)`). -/
structure LineInput where
  account_id : Nat
  debit_amount : ℚ
  credit_amount : ℚ
deriving DecidableEq, Repr

/-- The per-line validation loop of `create_journal_entry` (lines 137-148):
a line with both sides positive or both sides zero raises; otherwise the
debit and credit totals are accumulated. -/
def validateJournalLines : List LineInput → Except AccErr (ℚ × ℚ)
  | [] => .ok (0, 0)
  | l :: ls =>
    if 0 < l.debit_amount ∧ 0 < l.credit_amount then
      .error .lineBothDebitAndCredit
    else if l.debit_amount = 0 ∧ l.credit_amount = 0 then
      .error .lineNeitherDebitNorCredit
    else
      match validateJournalLines ls with
      | .error e => .error e
      | .ok (td, tc) => .ok (l.debit_amount + td, l.credit_amount + tc)

/-- Database state touched by the accounting service. -/
structure AccState where
  accounts : List ChartOfAccounts
  periods : List AccountingPeriod
  entries : List JournalEntry
  ledger : List GeneralLedger
  next_entry_id : Nat
  next_period_id : Nat
deriving DecidableEq, Repr

/-- Row lookup of `general_ledger` by `(account_id, period_id)`. -/
def glFind (gl : List GeneralLedger) (aid per : Nat) : Option GeneralLedger :=
  gl.find? (fun r => r.account_id == aid && r.period_id == per)

/-- The fresh `(account, period)` row created by `_update_general_ledger`
when none exists: every balance starts at 0. -/
def freshGLRow (aid per : Nat) : GeneralLedger :=
  { account_id := aid, period_id := per, beginning_balance := 0
    ending_balance := 0, debit_total := 0, credit_total := 0 }

/-- The mutation `_update_general_ledger` performs on the located row:
`debit_total += debit`, `credit_total += credit`, then
`ending_balance` is recomputed from the account's normal balance. -/
def applyToRow (bt : BalanceType) (r : GeneralLedger) (d c : ℚ) :
    GeneralLedger :=
  let dt := r.debit_total + d
  let ct := r.credit_total + c
  { r with
    debit_total := dt
    credit_total := ct
    ending_balance :=
      match bt with
      | .DEBIT => r.beginning_balance + dt - ct
      | .CREDIT => r.beginning_balance + ct - dt }

/-- Replace the first `(aid, per)` row of the ledger by its updated value,
appending a freshly-created zero row when none exists. -/
def glApplyFirst (bt : BalanceType) (aid per : Nat) (d c : ℚ) :
    List GeneralLedger → List GeneralLedger
  | [] => [applyToRow bt (freshGLRow aid per) d c]
  | r :: rs =>
    if r.account_id == aid && r.period_id == per then
      applyToRow bt r d c :: rs
    else
      r :: glApplyFirst bt aid per d c rs

/-- `AccountingService._update_general_ledger`: get-or-create the
`(account, period)` row, add the line's amounts to the running totals and
recompute the ending balance from the account's normal balance.  A missing
account makes the Python code crash on `account.balance_type`; that is the
`none` result. -/
def updateGeneralLedger (accounts : List ChartOfAccounts)
    (gl : List GeneralLedger) (aid per : Nat) (d c : ℚ) :
    Option (List GeneralLedger) :=
  match accounts.find? (fun a => a.id == aid) with
  | none => none
  | some acct => some (glApplyFirst acct.balance_type aid per d c gl)

/-- The per-line loop of `post_journal_entry`: apply
`_update_general_ledger` once per line, in line order. -/
def applyLinesToLedger (accounts : List ChartOfAccounts) (per : Nat) :
    List JournalEntryLine → List GeneralLedger → Option (List GeneralLedger)
  | [], gl => some gl
  | l :: ls, gl =>
    match updateGeneralLedger accounts gl l.account_id per
        l.debit_amount l.credit_amount with
    | none => none
    | some gl2 => applyLinesToLedger accounts per ls gl2

/-- `AccountingService.post_journal_entry`: only a `DRAFT` entry can be
posted; on success the entry becomes `POSTED` with `posted_at` recorded and
the general ledger is updated once per line. -/
def postJournalEntry (s : AccState) (entry_id : Nat) (now : Nat) :
    Except AccErr (AccState × JournalEntry) :=
  match s.entries.find? (fun e => e.id == entry_id) with
  | none => .error .entryNotFound
  | some e =>
    if e.status ≠ JournalEntryStatus.DRAFT then
      .error .onlyDraftCanBePosted
    else
      let posted : JournalEntry :=
        { e with status := .POSTED, posted_at := some now }
      match applyLinesToLedger s.accounts e.period_id e.lines s.ledger with
      | none => .error .accountMissing
      | some gl2 =>
        let s2 : AccState :=
          { s with
            entries := s.entries.map (fun x =>
              if x.id == entry_id then posted else x)
            ledger := gl2 }
        .ok (s2, posted)

/-- `AccountingService.create_journal_entry`: validation (line count, line
shape, balance) happens before anything is written; then the period is
resolved (possibly creating one), the entry and its lines are persisted in
`DRAFT`, and the entry is posted when `auto_post` is set.  Returns the new
entry's id. -/
def createJournalEntry (s : AccState) (tdate : PyDateTime)
    (lines : List LineInput) (auto_post : Bool) (now : Nat) :
    Except AccErr (AccState × Nat) :=
  if lines.length < 2 then .error .tooFewLines
  else
    match validateJournalLines lines with
    | .error e => .error e
    | .ok (td, tc) =>
      if td ≠ tc then .error .unbalanced
      else
        let (periods2, period) := getCurrentPeriod s.periods s.next_period_id tdate
        let eid := s.next_entry_id
        let entry : JournalEntry :=
          { id := eid
            status := .DRAFT
            total_debit := td
            total_credit := tc
            period_id := period.id
            posted_at := none
            lines := (List.range lines.length).zipWith
              (fun i l => { line_number := i + 1
                            account_id := l.account_id
                            debit_amount := l.debit_amount
                            credit_amount := l.credit_amount }) lines }
        let s2 : AccState :=
          { s with
            periods := periods2
            entries := s.entries ++ [entry]
            next_entry_id := eid + 1
            next_period_id := s.next_period_id + 1 }
        if auto_post then
          match postJournalEntry s2 eid now with
          | .error e => .error e
          | .ok (s3, _) => .ok (s3, eid)
        else
          .ok (s2, eid)

/-- Result of `ReportingService.get_trial_balance` (totals and the
`is_balanced` verdict; the per-account item rows are the `items` list). -/
structure TrialBalance where
  items : List (Nat × Option ℚ × Option ℚ)
  total_debits : ℚ
  total_credits : ℚ
  is_balanced : Bool
deriving DecidableEq, Repr

/-- The accumulation loop of `get_trial_balance`: each `general_ledger` row
of the period is joined with its account; a DEBIT-normal account with
positive ending balance feeds the debit column, a CREDIT-normal account
with positive ending balance feeds the credit column, and any other row
contributes to neither column. -/
def trialBalanceLoop (accounts : List ChartOfAccounts) :
    List GeneralLedger → List (Nat × Option ℚ × Option ℚ) × ℚ × ℚ
  | [] => ([], 0, 0)
  | r :: rs =>
    let (items, td, tc) := trialBalanceLoop accounts rs
    match accounts.find? (fun a => a.id == r.account_id) with
    | none => (items, td, tc)
    | some acct =>
      if acct.balance_type = BalanceType.DEBIT ∧ 0 < r.ending_balance then
        ((r.account_id, some r.ending_balance, none) :: items,
          td + r.ending_balance, tc)
      else if acct.balance_type = BalanceType.CREDIT ∧ 0 < r.ending_balance then
        ((r.account_id, none, some r.ending_balance) :: items,
          td, tc + r.ending_balance)
      else
        ((r.account_id, none, none) :: items, td, tc)

/-- `ReportingService.get_trial_balance` for an explicit period id. -/
def getTrialBalance (s : AccState) (period_id : Nat) : TrialBalance :=
  let rows := s.ledger.filter (fun r => r.period_id == period_id)
  let (items, td, tc) := trialBalanceLoop s.accounts rows
  { items := items
    total_debits := td
    total_credits := tc
    is_balanced := td == tc }

/-! ## Invoice and payment allocation
(`app/services/invoice_service.py`, `app/services/payment_service.py`) -/

/-- `InvoiceStatus` from `app/models/invoice.py`. -/
inductive InvoiceStatus where
  | PENDING
  | PAID
  | OVERDUE
  | CANCELED
deriving DecidableEq, Repr

/-- `PaymentStatus` as used by `app/services/payment_service.py`
(`PENDING`, `CONFIRMED`, `PARTIALLY_ALLOCATED`, `FULLY_ALLOCATED`,
`CANCELLED`); the enum declaration itself is absent from
`app/models/payment.py`, so the constructor set is reconstructed from the
service's uses. -/
inductive PaymentStatus where
  | PENDING
  | CONFIRMED
  | PARTIALLY_ALLOCATED
  | FULLY_ALLOCATED
  | CANCELLED
deriving DecidableEq, Repr

/-- A row of `invoices` (the fields the services use); `created_at` orders
FIFO allocation. -/
structure Invoice where
  id : Nat
  property_id : Nat
  amount : ℚ
  status : InvoiceStatus
  created_at : Nat
  paid_at : Option Nat
deriving DecidableEq, Repr

/-- A row of `payments` (the fields the allocation workflow uses). -/
structure Payment where
  id : Nat
  property_id : Nat
  amount : ℚ
  status : PaymentStatus
  approved_by_id : Option Nat
  approved_at : Option Nat
deriving DecidableEq, Repr

/-- A row of `payment_invoices` (one allocation of a payment to an
invoice). -/
structure PaymentInvoice where
  payment_id : Nat
  invoice_id : Nat
  amount : ℚ
deriving DecidableEq, Repr

/-- Errors raised (`ValueError`) by the payment service. -/
inductive PayErr where
  | paymentNotFound
  | invoiceNotFound
  | exceedsUnallocated
  | exceedsOutstanding
  | paymentNotPending
deriving DecidableEq, Repr

/-- Database state touched by the payment/invoice services. -/
structure PayState where
  payments : List Payment
  invoices : List Invoice
  allocations : List PaymentInvoice
deriving DecidableEq, Repr

/-- The allocations of one invoice (`invoice.payment_allocations`). -/
def invoiceAllocations (s : PayState) (iid : Nat) : List PaymentInvoice :=
  s.allocations.filter (fun a => a.invoice_id == iid)

/-- The allocations of one payment (`payment.invoice_allocations`). -/
def paymentAllocations (s : PayState) (pid : Nat) : List PaymentInvoice :=
  s.allocations.filter (fun a => a.payment_id == pid)

/-- `InvoiceService.calculate_outstanding_amount`: invoice amount minus the
sum of its allocations, clamped at 0 (0 for a missing invoice). -/
def calculateOutstandingAmount (s : PayState) (iid : Nat) : ℚ :=
  match s.invoices.find? (fun i => i.id == iid) with
  | none => 0
  | some inv =>
    let total_paid := ((invoiceAllocations s iid).map (fun a => a.amount)).sum
    pyMax 0 (inv.amount - total_paid)

/-- `PaymentService.get_unallocated_amount`: payment amount minus the sum
of its allocations, clamped at 0 (0 for a missing payment). -/
def getUnallocatedAmount (s : PayState) (pid : Nat) : ℚ :=
  match s.payments.find? (fun p => p.id == pid) with
  | none => 0
  | some p =>
    let total_allocated := ((paymentAllocations s pid).map (fun a => a.amount)).sum
    pyMax 0 (p.amount - total_allocated)

/-- `InvoiceService.update_invoice_status` (also stamps `paid_at` when the
new status is `PAID`). -/
def updateInvoiceStatus (s : PayState) (iid : Nat) (st : InvoiceStatus)
    (now : Nat) : PayState :=
  { s with
    invoices := s.invoices.map (fun i =>
      if i.id == iid then
        { i with status := st
                 paid_at := if st = InvoiceStatus.PAID then some now else i.paid_at }
      else i) }

/-- `InvoiceService.mark_invoice_as_paid_if_fully_allocated`: the invoice
becomes `PAID` when its outstanding amount is at most the 0.01 rounding
tolerance. -/
def markInvoiceAsPaidIfFullyAllocated (s : PayState) (iid : Nat)
    (now : Nat) : PayState :=
  if calculateOutstandingAmount s iid ≤ 1/100 then
    updateInvoiceStatus s iid InvoiceStatus.PAID now
  else s

/-- Insertion into a list kept sorted by `created_at` ascending (stable, so
equal timestamps keep their relative order). -/
def insertByCreatedAt (inv : Invoice) : List Invoice → List Invoice
  | [] => [inv]
  | j :: js =>
    if j.created_at ≤ inv.created_at then j :: insertByCreatedAt inv js
    else inv :: j :: js

/-- Sort invoices by `created_at` ascending. -/
def sortByCreatedAt : List Invoice → List Invoice
  | [] => []
  | i :: is2 => insertByCreatedAt i (sortByCreatedAt is2)

/-- `InvoiceService.get_pending_invoices_by_property`: the property's
`PENDING` invoices, oldest first. -/
def getPendingInvoicesByProperty (s : PayState) (prop : Nat) : List Invoice :=
  sortByCreatedAt (s.invoices.filter (fun i =>
    i.property_id == prop && i.status == InvoiceStatus.PENDING))

/-- Overwrite a payment's status. -/
def setPaymentStatus (s : PayState) (pid : Nat) (st : PaymentStatus) :
    PayState :=
  { s with
    payments := s.payments.map (fun p =>
      if p.id == pid then { p with status := st } else p) }

/-- The allocation loop of `PaymentService.allocate_payment_fifo`: walk the
pending invoices while `remaining > 0`, skip invoices with no outstanding
amount, allocate `min(remaining, outstanding)`, and mark an invoice paid
when its new outstanding amount is within the 0.01 tolerance.  Returns the
updated state, the remaining amount and the allocations created. -/
def fifoLoop (pid now : Nat) :
    List Invoice → PayState → ℚ → List PaymentInvoice →
    PayState × ℚ × List PaymentInvoice
  | [], s, remaining, acc => (s, remaining, acc)
  | inv :: rest, s, remaining, acc =>
    if remaining ≤ 0 then (s, remaining, acc)
    else
      let outstanding := calculateOutstandingAmount s inv.id
      if outstanding ≤ 0 then fifoLoop pid now rest s remaining acc
      else
        let allocation_amount := pyMin remaining outstanding
        let pi : PaymentInvoice :=
          { payment_id := pid, invoice_id := inv.id, amount := allocation_amount }
        let s2 : PayState := { s with allocations := s.allocations ++ [pi] }
        let s3 := markInvoiceAsPaidIfFullyAllocated s2 inv.id now
        fifoLoop pid now rest s3 (remaining - allocation_amount) (acc ++ [pi])

/-- `PaymentService.allocate_payment_fifo`: allocate the payment's full
`amount` over the property's pending invoices oldest-first; afterwards the
payment becomes `PARTIALLY_ALLOCATED` when an amount remains and
`FULLY_ALLOCATED` otherwise. -/
def allocatePaymentFifo (s : PayState) (pid now : Nat) :
    Except PayErr (PayState × List PaymentInvoice) :=
  match s.payments.find? (fun p => p.id == pid) with
  | none => .error .paymentNotFound
  | some p =>
    let pending := getPendingInvoicesByProperty s p.property_id
    let (s2, remaining, allocs) := fifoLoop pid now pending s p.amount []
    let s3 :=
      if 0 < remaining then setPaymentStatus s2 pid .PARTIALLY_ALLOCATED
      else setPaymentStatus s2 pid .FULLY_ALLOCATED
    .ok (s3, allocs)

/-- `PaymentService._update_payment_status`: `FULLY_ALLOCATED` when the
unallocated amount is within the 0.01 tolerance, `PARTIALLY_ALLOCATED` when
some but not all of the amount is allocated, else `CONFIRMED`. -/
def updatePaymentStatus (s : PayState) (pid : Nat) : PayState :=
  match s.payments.find? (fun p => p.id == pid) with
  | none => s
  | some p =>
    let unallocated := getUnallocatedAmount s pid
    if unallocated ≤ 1/100 then setPaymentStatus s pid .FULLY_ALLOCATED
    else if unallocated < p.amount then setPaymentStatus s pid .PARTIALLY_ALLOCATED
    else setPaymentStatus s pid .CONFIRMED

/-- `PaymentService.create_manual_allocation`: rejects an amount above the
payment's unallocated amount or above the invoice's outstanding amount,
otherwise records the allocation and refreshes both statuses. -/
def createManualAllocation (s : PayState) (pid iid : Nat) (amount : ℚ)
    (now : Nat) : Except PayErr (PayState × PaymentInvoice) :=
  match s.payments.find? (fun p => p.id == pid) with
  | none => .error .paymentNotFound
  | some _ =>
    match s.invoices.find? (fun i => i.id == iid) with
    | none => .error .invoiceNotFound
    | some _ =>
      let payment_unallocated := getUnallocatedAmount s pid
      let invoice_outstanding := calculateOutstandingAmount s iid
      if payment_unallocated < amount then .error .exceedsUnallocated
      else if invoice_outstanding < amount then .error .exceedsOutstanding
      else
        let pi : PaymentInvoice :=
          { payment_id := pid, invoice_id := iid, amount := amount }
        let s2 : PayState := { s with allocations := s.allocations ++ [pi] }
        let s3 := updatePaymentStatus s2 pid
        let s4 := markInvoiceAsPaidIfFullyAllocated s3 iid now
        .ok (s4, pi)

/-- `PaymentService.approve_payment`: only a `PENDING` payment can be
approved; the approval (status `CONFIRMED`, approver, timestamp) is
committed first; the journal-entry creation that follows is wrapped in
`try/except` — `journalFails` selects its outcome — and a failure is only
logged; finally FIFO allocation runs.  Returns the updated state, the ids
of the journal entries created and the payment as the caller sees it. -/
def approvePayment (s : PayState) (pid : Nat) (approver : Option Nat)
    (now : Nat) (journalFails : Bool) :
    Except PayErr (PayState × List Nat × Payment) :=
  match s.payments.find? (fun p => p.id == pid) with
  | none => .error .paymentNotFound
  | some p =>
    if p.status ≠ PaymentStatus.PENDING then .error .paymentNotPending
    else
      let approved : Payment :=
        { p with
          status := .CONFIRMED
          approved_by_id := if approver.isSome then approver else p.approved_by_id
          approved_at := if approver.isSome then some now else p.approved_at }
      let s2 : PayState :=
        { s with payments := s.payments.map (fun q =>
            if q.id == pid then approved else q) }
      let journal_ids : List Nat := if journalFails then [] else [pid]
      let s3 :=
        match allocatePaymentFifo s2 pid now with
        | .ok (s4, _) => s4
        | .error _ => s2
      match s3.payments.find? (fun q => q.id == pid) with
      | some q => .ok (s3, journal_ids, q)
      | none => .ok (s3, journal_ids, approved)

/-! ## Bank-statement reconciliation
(`app/services/reconciliation_service.py`) -/

/-- A transaction's `reconciliation_status`
(`app/models/bank_statement.py`). -/
inductive ReconStatus where
  | UNMATCHED
  | AUTO_MATCHED
  | MANUAL_MATCHED
  | DISPUTED
  | CONFIRMED
deriving DecidableEq, Repr

/-- The payment fields the reconciliation matcher reads.  `created_day` is
`payment.created_at.date()` as a day number. -/
structure ReconPayment where
  id : Nat
  amount : ℚ
  created_day : Int
  reference_number : Option String
  notes : Option String
deriving DecidableEq, Repr

/-- A row of `bank_transactions` (the fields the matcher reads);
`transaction_date` is a day number. -/
structure BankTxn where
  id : Nat
  transaction_date : Int
  credit_amount : Option ℚ
  debit_amount : Option ℚ
  reference_number : Option String
  description : String
  reconciliation_status : ReconStatus
  matched_payment_id : Option Nat
  match_confidence : Option ℚ
deriving DecidableEq, Repr

/-- Python truthiness of an optional number (`None` and `0` are falsy). -/
def truthyAmount (o : Option ℚ) : Option ℚ :=
  match o with
  | none => none
  | some x => if x = 0 then none else some x

/-- `BankTransaction.transaction_amount`:
`float(self.credit_amount or self.debit_amount or 0)`. -/
def transactionAmount (t : BankTxn) : ℚ :=
  ((truthyAmount t.credit_amount).or (truthyAmount t.debit_amount)).getD 0

/-- Python truthiness of an optional string (`None` and the empty string
are falsy). -/
def truthyStr (o : Option String) : Option String :=
  match o with
  | none => none
  | some x => if x = "" then none else some x

/-- Whether the first character list starts the second. -/
def charsLead : List Char → List Char → Bool
  | [], _ => true
  | _ :: _, [] => false
  | a :: as, b :: bs => a == b && charsLead as bs

/-- Whether the second character list occurs inside the first. -/
def charsContain : List Char → List Char → Bool
  | [], needle => needle.isEmpty
  | c :: rest, needle => charsLead needle (c :: rest) || charsContain rest needle

/-- Python `needle in hay` on strings (substring test). -/
def strIn (needle hay : String) : Bool :=
  charsContain hay.data needle.data

/-- ASCII lower-casing of one character (the case folding Python applies
to the ASCII range). -/
def charLower (c : Char) : Char :=
  if 65 ≤ c.toNat ∧ c.toNat ≤ 90 then Char.ofNat (c.toNat + 32) else c

/-- Split a character list into maximal space-free words; `cur` is the
word currently being read, in reverse. -/
def wordsAux : List Char → List Char → List (List Char)
  | [], cur => if cur.isEmpty then [] else [cur.reverse]
  | c :: cs, cur =>
    if c = ' ' then
      if cur.isEmpty then wordsAux cs [] else cur.reverse :: wordsAux cs []
    else wordsAux cs (c :: cur)

/-- Python `s.lower().split()`: lower-cased words of a string. -/
def pyWords (s : String) : List (List Char) :=
  wordsAux (s.data.map charLower) []

/-- Python `set(s.lower().split())`: the deduplicated word list. -/
def pyWordSet (s : String) : List (List Char) :=
  (pyWords s).dedup

/-- The amount component of `_calculate_match_score` (weight 0.40): exact
match 0.40, within ฿1 0.30, within 1% of the payment amount 0.20,
else 0. -/
def amountScore (t : BankTxn) (p : ReconPayment) : ℚ :=
  let amount_diff := pyAbs (transactionAmount t - p.amount)
  if amount_diff = 0 then 4/10
  else if amount_diff ≤ 1 then 3/10
  else if amount_diff ≤ p.amount * (1/100) then 2/10
  else 0

/-- The date component of `_calculate_match_score` (weight 0.30): same day
0.30, one day 0.20, up to three days 0.10, else 0. -/
def dateScore (t : BankTxn) (p : ReconPayment) : ℚ :=
  let date_diff := (t.transaction_date - p.created_day).natAbs
  if date_diff = 0 then 3/10
  else if date_diff ≤ 1 then 2/10
  else if date_diff ≤ 3 then 1/10
  else 0

/-- The reference component of `_calculate_match_score` (weight 0.20):
requires both references truthy; exact match 0.20, substring either way
0.10, else 0. -/
def referenceScore (t : BankTxn) (p : ReconPayment) : ℚ :=
  match truthyStr t.reference_number, truthyStr p.reference_number with
  | some tr, some pr =>
    if tr = pr then 2/10
    else if strIn tr pr || strIn pr tr then 1/10
    else 0
  | _, _ => 0

/-- The description component of `_calculate_match_score` (weight 0.10):
requires truthy payment notes and transaction description; proportional to
the shared lower-cased words over the larger word set. -/
def descriptionScore (t : BankTxn) (p : ReconPayment) : ℚ :=
  match truthyStr p.notes, truthyStr (some t.description) with
  | some n, some d =>
    let payment_words := pyWordSet n
    let desc_words := pyWordSet d
    let common_words := payment_words.filter (fun w => w ∈ desc_words)
    if common_words ≠ [] then
      (1/10) * ((common_words.length : ℚ) /
        (max payment_words.length desc_words.length : ℚ))
    else 0
  | _, _ => 0

/-- `ReconciliationService._calculate_match_score`: additive weighted score
capped at 1.0. -/
def calculateMatchScore (t : BankTxn) (p : ReconPayment) : ℚ :=
  pyMin (amountScore t p + dateScore t p + referenceScore t p +
    descriptionScore t p) 1

/-- The best-candidate loop of `_find_matching_payment`: keep the candidate
whenever its score strictly beats the best so far and reaches the 0.8
threshold. -/
def findLoop (t : BankTxn) (best : Option ReconPayment) (best_score : ℚ) :
    List ReconPayment → Option ReconPayment
  | [] => best
  | p :: ps =>
    let score := calculateMatchScore t p
    if best_score < score ∧ 4/5 ≤ score then findLoop t (some p) score ps
    else findLoop t best best_score ps

/-- `ReconciliationService._find_matching_payment`. -/
def findMatchingPayment (t : BankTxn) (payments : List ReconPayment) :
    Option ReconPayment :=
  findLoop t none 0 payments

/-- The matching loop of `auto_reconcile_statement`: each transaction takes
the best still-available payment when one scores at least 0.8, becoming
`AUTO_MATCHED` with the match confidence recorded, and the matched payment
leaves the pool; otherwise the transaction is untouched.  Returns the
processed transactions and the number of matches. -/
def autoLoop : List BankTxn → List ReconPayment → List BankTxn × Nat
  | [], _ => ([], 0)
  | t :: ts, payments =>
    match findMatchingPayment t payments with
    | some p =>
      let t2 : BankTxn :=
        { t with
          matched_payment_id := some p.id
          reconciliation_status := .AUTO_MATCHED
          match_confidence := some (calculateMatchScore t p) }
      let payments2 := payments.filter (fun q => q.id ≠ p.id)
      let (ts2, n) := autoLoop ts payments2
      (t2 :: ts2, n + 1)
    | none =>
      let (ts2, n) := autoLoop ts payments
      (t :: ts2, n)

/-- `ReconciliationService.auto_reconcile_statement` restricted to its
matching core: only the statement's unmatched transactions carrying a
positive credit amount enter the greedy matching loop. -/
def autoReconcileStatement (txns : List BankTxn)
    (payments : List ReconPayment) : List BankTxn × Nat :=
  let unmatched := txns.filter (fun t =>
    t.reconciliation_status == ReconStatus.UNMATCHED &&
    (match t.credit_amount with
     | some c => decide (0 < c)
     | none => false))
  autoLoop unmatched payments

/-! ## Specification-side definitions

These definitions follow the wording of the specification (not the source)
and exist to be compared against the embedded code. -/

/-- The validity condition the specification states for `createEntry`:
at least two lines, every line with exactly one strictly positive side,
and equal, strictly positive debit and credit totals. -/
def specEntryValid (lines : List LineInput) : Prop :=
  2 ≤ lines.length ∧
  (∀ l ∈ lines,
    (0 < l.debit_amount ∧ l.credit_amount = 0) ∨
    (l.debit_amount = 0 ∧ 0 < l.credit_amount)) ∧
  (lines.map (fun l => l.debit_amount)).sum =
    (lines.map (fun l => l.credit_amount)).sum ∧
  0 < (lines.map (fun l => l.debit_amount)).sum

instance (lines : List LineInput) : Decidable (specEntryValid lines) := by
  unfold specEntryValid; infer_instance

/-- The balance accumulator `apply(account, period, debitAmt, creditAmt)`
as the specification words it: starting from the located (or freshly
created, all-zero) row, `debitTotal += debitAmt`, `creditTotal += creditAmt`
and `endingBalance` is recomputed as `beginning + debitTotal − creditTotal`
for a DEBIT-normal account and `beginning + creditTotal − debitTotal`
otherwise. -/
def specApplyAccumulator (bt : BalanceType) (r : GeneralLedger) (d c : ℚ) :
    GeneralLedger :=
  { r with
    debit_total := r.debit_total + d
    credit_total := r.credit_total + c
    ending_balance :=
      if bt = BalanceType.DEBIT then
        r.beginning_balance + (r.debit_total + d) - (r.credit_total + c)
      else
        r.beginning_balance + (r.credit_total + c) - (r.debit_total + d) }

/-! ## Concrete scenarios used by the claims -/

/-- Run `createJournalEntry` and keep the resulting state (identity on the
error path). -/
def createEntryState (s : AccState) (tdate : PyDateTime)
    (lines : List LineInput) (auto_post : Bool) (now : Nat) : AccState :=
  match createJournalEntry s tdate lines auto_post now with
  | .ok r => r.1
  | .error _ => s

/-- Run `allocate_payment_fifo` and keep the resulting state (identity on
the error path). -/
def fifoState (s : PayState) (pid now : Nat) : PayState :=
  match allocatePaymentFifo s pid now with
  | .ok r => r.1
  | .error _ => s

/-- A journal-entry line list whose two lines carry a negative and a
positive debit: no line has a strictly positive side paired with a zero
side, and the totals are `0 = 0`. -/
def negLines : List LineInput := [⟨1, -5, 0⟩, ⟨1, 5, 0⟩]

/-- A ledger state with one DEBIT-normal and one CREDIT-normal account and
an open 2025-01 period. -/
def ledgerBase : AccState :=
  { accounts := [⟨1, .ASSET, .DEBIT⟩, ⟨2, .REVENUE, .CREDIT⟩]
    periods := [⟨1, "2025-01", "MONTHLY", 2025, ⟨2025, 1, 1, 0⟩,
      ⟨2025, 1, 31, 0⟩, false⟩]
    entries := []
    ledger := []
    next_entry_id := 10
    next_period_id := 5 }

/-- A ledger state with two DEBIT-normal (asset) accounts and an open
2025-01 period. -/
def twoAssetBase : AccState :=
  { accounts := [⟨1, .ASSET, .DEBIT⟩, ⟨2, .ASSET, .DEBIT⟩]
    periods := [⟨1, "2025-01", "MONTHLY", 2025, ⟨2025, 1, 1, 0⟩,
      ⟨2025, 1, 31, 0⟩, false⟩]
    entries := []
    ledger := []
    next_entry_id := 10
    next_period_id := 5 }

/-- A mid-month transaction date inside the 2025-01 period. -/
def midJan : PyDateTime := ⟨2025, 1, 15, 0⟩

/-- The `[debit Bank 1000, credit Revenue 1000]` entry of the
specification's posting example. -/
def bankRevenueLines : List LineInput := [⟨1, 1000, 0⟩, ⟨2, 0, 1000⟩]

/-- A bank-to-bank transfer: debit asset 1, credit asset 2, both
DEBIT-normal. -/
def assetTransferLines : List LineInput := [⟨1, 1000, 0⟩, ⟨2, 0, 1000⟩]

/-- A confirmed payment of 5000 for property 100. -/
def payFive : Payment := ⟨1, 100, 5000, .CONFIRMED, none, none⟩

/-- Pending invoice A: 3000, created first. -/
def invoiceA : Invoice := ⟨11, 100, 3000, .PENDING, 1, none⟩

/-- Pending invoice B: 4000, created second. -/
def invoiceB : Invoice := ⟨12, 100, 4000, .PENDING, 2, none⟩

/-- The FIFO example state: payment of 5000 against pending invoices A
(3000, older) and B (4000, newer). -/
def fifoExample : PayState :=
  { payments := [payFive], invoices := [invoiceA, invoiceB], allocations := [] }

/-- A payment of 5000 with no invoices at all. -/
def noPendingExample : PayState :=
  { payments := [payFive], invoices := [], allocations := [] }

/-- Bank transaction with amount 2500, day 0 and reference REF123. -/
def txnExact : BankTxn :=
  ⟨1, 0, some 2500, none, some "REF123", "", .UNMATCHED, none, none⟩

/-- Payment with amount 2500, day 0, reference REF123 and no notes. -/
def payExact : ReconPayment := ⟨1, 2500, 0, some "REF123", none⟩

/-- Bank transaction as `txnExact` but with description `Monthly fee`. -/
def txnExactDesc : BankTxn :=
  ⟨2, 0, some 2500, none, some "REF123", "Monthly fee", .UNMATCHED, none, none⟩

/-- Payment as `payExact` but with notes `monthly FEE` (same word set as
`txnExactDesc`'s description after lower-casing). -/
def payExactDesc : ReconPayment := ⟨2, 2500, 0, some "REF123", some "monthly FEE"⟩

/-- Bank transaction of 2500 on day 5 with no reference. -/
def txnLate : BankTxn := ⟨3, 5, some 2500, none, none, "x", .UNMATCHED, none, none⟩

/-- Payment of 2490 on day 0 with no reference: amount within the 1%
tolerance of the transaction, date 5 days away. -/
def payNear : ReconPayment := ⟨3, 2490, 0, none, none⟩

/-- Whether `create_journal_entry` returned without raising. -/
def accEntryOk (r : Except AccErr (AccState × Nat)) : Bool :=
  match r with
  | .ok _ => true
  | .error _ => false

/-- Run `allocate_payment_fifo` and keep the allocations it created. -/
def fifoAllocs (s : PayState) (pid now : Nat) : List PaymentInvoice :=
  match allocatePaymentFifo s pid now with
  | .ok r => r.2
  | .error _ => []

/-- The status of a payment in a state, by id. -/
def paymentStatusIn (s : PayState) (pid : Nat) : Option PaymentStatus :=
  (s.payments.find? (fun p => p.id == pid)).map (fun p => p.status)

/-- The status of an invoice in a state, by id. -/
def invoiceStatusIn (s : PayState) (iid : Nat) : Option InvoiceStatus :=
  (s.invoices.find? (fun i => i.id == iid)).map (fun i => i.status)

/-! ## Helper lemmas -/

/-- `find?` over an id-keyed in-place update: when the update preserves the
searched id, the search finds the updated element. -/
theorem find?_map_upd {α : Type} (idOf : α → Nat) (f : α → α) (pid : Nat)
    (hf : ∀ x, idOf x = pid → idOf (f x) = pid) :
    ∀ l : List α,
      (l.map (fun x => if idOf x == pid then f x else x)).find?
        (fun x => idOf x == pid) =
      (l.find? (fun x => idOf x == pid)).map f
  | [] => rfl
  | x :: xs => by
    by_cases h : idOf x = pid
    · simp [List.find?_cons, h, hf x h]
    · have hb : (idOf x == pid) = false := by simp [h]
      simp only [List.map_cons, List.find?_cons, hb, if_false, Bool.false_eq_true,
        cond_false]
      exact find?_map_upd idOf f pid hf xs

/-- The FIFO loop never touches the payment table. -/
theorem fifoLoop_payments (pid now : Nat) :
    ∀ invs s r acc, (fifoLoop pid now invs s r acc).1.payments = s.payments
  | [], s, r, acc => rfl
  | inv :: rest, s, r, acc => by
    simp only [fifoLoop]
    split
    · rfl
    · split
      · exact fifoLoop_payments pid now rest s r acc
      · rw [fifoLoop_payments pid now rest _ _ _]
        unfold markInvoiceAsPaidIfFullyAllocated
        split <;> simp [updateInvoiceStatus]

/-- Money conservation of the FIFO loop: the remaining amount plus the
total of the accumulated allocations is invariant. -/
theorem fifoLoop_conserves (pid now : Nat) :
    ∀ invs s r acc,
      (fifoLoop pid now invs s r acc).2.1 +
        (((fifoLoop pid now invs s r acc).2.2).map (fun a => a.amount)).sum =
      r + ((acc.map (fun a => a.amount)).sum)
  | [], s, r, acc => rfl
  | inv :: rest, s, r, acc => by
    simp only [fifoLoop]
    split
    · rfl
    · split
      · exact fifoLoop_conserves pid now rest s r acc
      · rw [fifoLoop_conserves pid now rest _ _ _]
        simp only [List.map_append, List.sum_append, List.map_cons, List.map_nil,
          List.sum_cons, List.sum_nil]
        ring

/-- The FIFO loop never drives the remaining amount negative. -/
theorem fifoLoop_nonneg (pid now : Nat) :
    ∀ invs s r acc, 0 ≤ r → 0 ≤ (fifoLoop pid now invs s r acc).2.1
  | [], s, r, acc => fun h => h
  | inv :: rest, s, r, acc => by
    intro h
    simp only [fifoLoop]
    split
    · exact h
    · split
      · exact fifoLoop_nonneg pid now rest s r acc h
      · refine fifoLoop_nonneg pid now rest _ _ _ ?_
        have hmin : pyMin r (calculateOutstandingAmount s inv.id) ≤ r := by
          unfold pyMin
          split
          · exact le_refl r
          · rename_i h2
            push_neg at h2
            linarith
        linarith

/-- Full characterization of `allocate_payment_fifo` at the found payment:
it succeeds, the created allocations never exceed the payment amount (for a
non-negative amount), and the payment's new status is
`PARTIALLY_ALLOCATED` exactly when an amount remains. -/
theorem allocatePaymentFifo_spec (s : PayState) (pid now : Nat) (p : Payment)
    (hp : s.payments.find? (fun q => q.id == pid) = some p) :
    ∃ s2 allocs,
      allocatePaymentFifo s pid now = .ok (s2, allocs) ∧
      s2.payments.find? (fun q => q.id == pid) =
        some { p with status :=
          if 0 < p.amount - ((allocs.map (fun a => a.amount)).sum)
          then .PARTIALLY_ALLOCATED else .FULLY_ALLOCATED } ∧
      (0 ≤ p.amount → (allocs.map (fun a => a.amount)).sum ≤ p.amount) := by
  rcases hres : fifoLoop pid now (getPendingInvoicesByProperty s p.property_id)
    s p.amount [] with ⟨s1, rem, allocs⟩
  have hcon := fifoLoop_conserves pid now
    (getPendingInvoicesByProperty s p.property_id) s p.amount []
  rw [hres] at hcon
  simp only [List.map_nil, List.sum_nil, add_zero] at hcon
  have hrem : rem = p.amount - ((allocs.map (fun a => a.amount)).sum) := by
    linarith
  have hpay : s1.payments = s.payments := by
    have h2 := fifoLoop_payments pid now
      (getPendingInvoicesByProperty s p.property_id) s p.amount []
    rw [hres] at h2
    exact h2
  have hnn : 0 ≤ p.amount → 0 ≤ rem := by
    intro h
    have h3 := fifoLoop_nonneg pid now
      (getPendingInvoicesByProperty s p.property_id) s p.amount [] h
    rw [hres] at h3
    exact h3
  have hfind : ∀ st : PaymentStatus,
      (setPaymentStatus s1 pid st).payments.find? (fun q => q.id == pid) =
        some { p with status := st } := by
    intro st
    have h1 := find?_map_upd (fun q : Payment => q.id)
      (fun q : Payment => { q with status := st }) pid (fun x hx => hx)
      s.payments
    unfold setPaymentStatus
    rw [hpay, h1, hp]
    rfl
  refine ⟨if 0 < rem then setPaymentStatus s1 pid .PARTIALLY_ALLOCATED
    else setPaymentStatus s1 pid .FULLY_ALLOCATED, allocs, ?_, ?_, ?_⟩
  · unfold allocatePaymentFifo
    rw [hp]
    simp only [hres]
  · by_cases h4 : 0 < rem
    · rw [if_pos h4, hfind, ← hrem, if_pos h4]
    · rw [if_neg h4, hfind, ← hrem, if_neg h4]
  · intro hamt
    have := hnn hamt
    rw [hrem] at this
    linarith

/-- C1: the claim says `create_journal_entry` raises unless every line has
exactly one strictly positive side and the common total is strictly
positive, and that a raise happens before any persistence.  The code's
per-line validation only rejects both-sides-positive and both-sides-zero
lines, so the two-line input `[debit −5, debit 5]` — which violates the
claim's condition (no line has exactly one strictly positive side, and the
totals are `0 = 0`) — is accepted and persisted as a journal entry. -/
theorem createJournalEntry_accepts_nonpositive_lines :
    ¬ specEntryValid negLines ∧
    validateJournalLines negLines = .ok (0, 0) ∧
    accEntryOk (createJournalEntry ledgerBase midJan negLines false 0) = true ∧
    (createEntryState ledgerBase midJan negLines false 0).entries.length = 1 := by
  refine ⟨?_, ?_, ?_, ?_⟩
  · intro h
    rcases h with ⟨-, hall, -, -⟩
    have h1 := hall ⟨1, -5, 0⟩ (by simp [negLines])
    rcases h1 with ⟨h, -⟩ | ⟨h, -⟩ <;> norm_num at h
  · norm_num [validateJournalLines, negLines]
  · norm_num +decide [accEntryOk, createJournalEntry, validateJournalLines,
      negLines, ledgerBase, midJan, getCurrentPeriod]
  · norm_num +decide [createEntryState, createJournalEntry, validateJournalLines,
      negLines, ledgerBase, midJan, getCurrentPeriod]

/-- C3: the claim says the trial balance is balanced after every sequence
of posted entries.  Posting the perfectly legal balanced transfer
`[debit asset 1 1000, credit asset 2 1000]` between two DEBIT-normal
accounts drives account 2's ending balance to −1000; `get_trial_balance`
drops non-positive balances from both columns, so it reports totals
`1000` vs `0` and `is_balanced = false`. -/
theorem trialBalance_reports_unbalanced_after_legal_postings :
    validateJournalLines assetTransferLines = .ok (1000, 1000) ∧
    (glFind (createEntryState twoAssetBase midJan assetTransferLines true 7).ledger
      2 1).map (fun r => r.ending_balance) = some (-1000) ∧
    getTrialBalance (createEntryState twoAssetBase midJan assetTransferLines true 7)
      1 =
      { items := [(1, some 1000, none), (2, none, none)]
        total_debits := 1000
        total_credits := 0
        is_balanced := false } := by
  refine ⟨?_, ?_, ?_⟩ <;>
    norm_num +decide [validateJournalLines, assetTransferLines, createEntryState,
      createJournalEntry, twoAssetBase, midJan, getCurrentPeriod,
      postJournalEntry, applyLinesToLedger, updateGeneralLedger, glApplyFirst,
      applyToRow, freshGLRow, glFind, getTrialBalance, trialBalanceLoop]

/-- C5: the claim says the sum of a payment's allocations never exceeds the
payment's amount after any sequence of allocation operations.  Running
`allocate_payment_fifo` twice for the 5000 payment against invoices A=3000
and B=4000 allocates 3000+2000 on the first run and — because the loop
restarts from the full `payment.amount` instead of the unallocated
amount — another 2000 to B on the second run: 7000 allocated out of
5000. -/
theorem fifo_rerun_exceeds_payment_amount :
    payFive.amount = 5000 ∧
    ((paymentAllocations (fifoState (fifoState fifoExample 1 9) 1 9) 1).map
      (fun a => a.amount)).sum = 7000 ∧
    ¬ (((paymentAllocations (fifoState (fifoState fifoExample 1 9) 1 9) 1).map
      (fun a => a.amount)).sum ≤ payFive.amount) := by
  refine ⟨by norm_num [payFive], ?_, ?_⟩ <;>
    norm_num +decide [fifoState, allocatePaymentFifo, fifoLoop, fifoExample,
      payFive, invoiceA, invoiceB, getPendingInvoicesByProperty, sortByCreatedAt,
      insertByCreatedAt, calculateOutstandingAmount, invoiceAllocations,
      paymentAllocations, markInvoiceAsPaidIfFullyAllocated, updateInvoiceStatus,
      setPaymentStatus, pyMin, pyMax]

/-- C7: the claim says the period created for a date always contains that
date.  For `2025-01-31 12:00` the created `2025-01` period ends at
`2025-01-31 00:00` (`datetime(year, month+1, 1) - timedelta(days=1)`), so
the date of the transaction lies outside the period that
`get_current_period` just created and returned for it. -/
theorem getCurrentPeriod_created_period_misses_intraday_date :
    (getCurrentPeriod [] 0 ⟨2025, 1, 31, 720⟩).2.period_name = "2025-01" ∧
    (getCurrentPeriod [] 0 ⟨2025, 1, 31, 720⟩).2.is_closed = false ∧
    (getCurrentPeriod [] 0 ⟨2025, 1, 31, 720⟩).2.start_date = ⟨2025, 1, 1, 0⟩ ∧
    (getCurrentPeriod [] 0 ⟨2025, 1, 31, 720⟩).2.end_date = ⟨2025, 1, 31, 0⟩ ∧
    PyDateTime.le (getCurrentPeriod [] 0 ⟨2025, 1, 31, 720⟩).2.start_date
      ⟨2025, 1, 31, 720⟩ = true ∧
    PyDateTime.le ⟨2025, 1, 31, 720⟩
      (getCurrentPeriod [] 0 ⟨2025, 1, 31, 720⟩).2.end_date = false := by
  decide

/-- C8 counterexample: the claim says a transaction and payment with
identical amount, identical date and identical reference number score
exactly 1.0.  The three leading components only reach
0.40 + 0.30 + 0.20 = 0.90, and with no payment notes the description
component is 0, so such a pair scores 0.9, not 1. -/
theorem matchScore_identical_triple_is_ninety_percent :
    transactionAmount txnExact = payExact.amount ∧
    txnExact.transaction_date = payExact.created_day ∧
    txnExact.reference_number = payExact.reference_number ∧
    calculateMatchScore txnExact payExact = 9/10 ∧
    (9/10 : ℚ) ≠ 1 := by
  refine ⟨?_, by decide, by decide, ?_, by norm_num⟩
  · norm_num [transactionAmount, truthyAmount, txnExact, payExact]
  · norm_num +decide [calculateMatchScore, amountScore, dateScore,
      referenceScore, descriptionScore, transactionAmount, truthyAmount,
      truthyStr, pyAbs, pyMin, txnExact, payExact]

/-- C4 counterexample: the claim says a payment with no pending invoices is
left `unallocated`.  `allocate_payment_fifo` only distinguishes
`remaining > 0` from the rest, so the 5000 payment with no invoices at all
creates no allocation yet is set to `PARTIALLY_ALLOCATED`. -/
theorem fifo_no_pending_marks_partially_allocated :
    getPendingInvoicesByProperty noPendingExample 100 = [] ∧
    fifoAllocs noPendingExample 1 9 = [] ∧
    paymentStatusIn (fifoState noPendingExample 1 9) 1 =
      some PaymentStatus.PARTIALLY_ALLOCATED := by
  refine ⟨by decide, ?_, ?_⟩ <;>
    norm_num +decide [fifoAllocs, fifoState, allocatePaymentFifo, fifoLoop,
      noPendingExample, payFive, getPendingInvoicesByProperty, sortByCreatedAt,
      paymentStatusIn, setPaymentStatus]

/-- C4 (amended): `allocate_payment_fifo` walks the pending invoices
oldest-first as claimed, but its final status rule is two-valued: the
payment becomes `FULLY_ALLOCATED` exactly when the allocations created in
this run add up to the full payment amount, and `PARTIALLY_ALLOCATED` in
every other case — with no epsilon and no separate `unallocated` outcome.
The FIFO example behaves as claimed: 3000 to invoice A (A `PAID`), 2000 to
invoice B (outstanding 2000 left), payment fully allocated. -/
theorem allocatePaymentFifo_amended_status_rule :
    (∀ s pid now p, s.payments.find? (fun q => q.id == pid) = some p →
      0 ≤ p.amount →
      ∃ s2 allocs, allocatePaymentFifo s pid now = .ok (s2, allocs) ∧
        (allocs.map (fun a => a.amount)).sum ≤ p.amount ∧
        (paymentStatusIn s2 pid = some .FULLY_ALLOCATED ↔
          (allocs.map (fun a => a.amount)).sum = p.amount) ∧
        (paymentStatusIn s2 pid = some .FULLY_ALLOCATED ∨
          paymentStatusIn s2 pid = some .PARTIALLY_ALLOCATED)) ∧
    fifoAllocs fifoExample 1 9 = [⟨1, 11, 3000⟩, ⟨1, 12, 2000⟩] ∧
    invoiceStatusIn (fifoState fifoExample 1 9) 11 = some .PAID ∧
    invoiceStatusIn (fifoState fifoExample 1 9) 12 = some .PENDING ∧
    calculateOutstandingAmount (fifoState fifoExample 1 9) 12 = 2000 ∧
    paymentStatusIn (fifoState fifoExample 1 9) 1 = some .FULLY_ALLOCATED := by
  constructor
  · intro s pid now p hp hamt
    obtain ⟨s2, allocs, hok, hfind, hble⟩ := allocatePaymentFifo_spec s pid now p hp
    have hsum := hble hamt
    refine ⟨s2, allocs, hok, hsum, ?_, ?_⟩
    · unfold paymentStatusIn
      rw [hfind]
      by_cases hc : 0 < p.amount - ((allocs.map (fun a => a.amount)).sum)
      · rw [if_pos hc]
        constructor
        · intro hcontra
          simp at hcontra
        · intro heq
          exfalso
          rw [heq] at hc
          simp at hc
      · rw [if_neg hc]
        push_neg at hc
        constructor
        · intro _
          linarith
        · intro _
          simp
    · unfold paymentStatusIn
      rw [hfind]
      by_cases hc : 0 < p.amount - ((allocs.map (fun a => a.amount)).sum)
      · rw [if_pos hc]
        right
        rfl
      · rw [if_neg hc]
        left
        rfl
  refine ⟨?_, ?_, ?_, ?_, ?_⟩ <;>
    norm_num +decide [fifoAllocs, fifoState, allocatePaymentFifo, fifoLoop,
      fifoExample, payFive, invoiceA, invoiceB, getPendingInvoicesByProperty,
      sortByCreatedAt, insertByCreatedAt, calculateOutstandingAmount,
      invoiceAllocations, paymentAllocations, markInvoiceAsPaidIfFullyAllocated,
      updateInvoiceStatus, setPaymentStatus, invoiceStatusIn, paymentStatusIn,
      pyMin, pyMax]

/-- Witness for C4: the amended status rule applied to the concrete FIFO
example. -/
theorem allocatePaymentFifo_amended_status_rule_witness :
    ∃ s2 allocs, allocatePaymentFifo fifoExample 1 9 = .ok (s2, allocs) ∧
      (allocs.map (fun a => a.amount)).sum ≤ payFive.amount ∧
      (paymentStatusIn s2 1 = some .FULLY_ALLOCATED ↔
        (allocs.map (fun a => a.amount)).sum = payFive.amount) ∧
      (paymentStatusIn s2 1 = some .FULLY_ALLOCATED ∨
        paymentStatusIn s2 1 = some .PARTIALLY_ALLOCATED) :=
  allocatePaymentFifo_amended_status_rule.1 fifoExample 1 9 payFive rfl
    (by norm_num [payFive])

/-- Dissection of a successful `post_journal_entry` call: the entry was
found, it was `DRAFT`, the ledger update succeeded, and the result is the
posted entry and the updated state. -/
theorem postJournalEntry_ok_elim (s : AccState) (eid now : Nat) (s2 : AccState)
    (e2 : JournalEntry) (hok : postJournalEntry s eid now = .ok (s2, e2)) :
    ∃ e gl2, s.entries.find? (fun x => x.id == eid) = some e ∧
      ¬ e.status ≠ JournalEntryStatus.DRAFT ∧
      applyLinesToLedger s.accounts e.period_id e.lines s.ledger = some gl2 ∧
      e2 = { e with status := .POSTED, posted_at := some now } ∧
      s2 = { s with
        entries := s.entries.map (fun x =>
          if x.id == eid then
            { e with status := JournalEntryStatus.POSTED, posted_at := some now }
          else x)
        ledger := gl2 } := by
  unfold postJournalEntry at hok
  cases hfind : s.entries.find? (fun x => x.id == eid) with
  | none =>
    rw [hfind] at hok
    exact Except.noConfusion hok
  | some e =>
    rw [hfind] at hok
    simp only [] at hok
    by_cases hst : e.status ≠ JournalEntryStatus.DRAFT
    · rw [if_pos hst] at hok
      exact Except.noConfusion hok
    · rw [if_neg hst] at hok
      cases happ : applyLinesToLedger s.accounts e.period_id e.lines s.ledger with
      | none =>
        rw [happ] at hok
        exact Except.noConfusion hok
      | some gl2 =>
        rw [happ] at hok
        simp only [Except.ok.injEq, Prod.mk.injEq] at hok
        exact ⟨e, gl2, rfl, hst, happ, hok.2.symm, hok.1.symm⟩

/-- C6: `post_journal_entry` fails on any entry that is not `DRAFT`, on
success marks the entry `POSTED` with `posted_at` recorded, and a
just-posted entry can never be posted a second time. -/
theorem postJournalEntry_draft_only :
    (∀ s eid now e, s.entries.find? (fun x => x.id == eid) = some e →
      e.status ≠ JournalEntryStatus.DRAFT →
      postJournalEntry s eid now = .error .onlyDraftCanBePosted) ∧
    (∀ s eid now s2 e2, postJournalEntry s eid now = .ok (s2, e2) →
      e2.status = .POSTED ∧ e2.posted_at = some now) ∧
    (∀ s eid now s2 e2 now2, postJournalEntry s eid now = .ok (s2, e2) →
      postJournalEntry s2 eid now2 = .error .onlyDraftCanBePosted) := by
  refine ⟨?_, ?_, ?_⟩
  · intro s eid now e hfind hne
    unfold postJournalEntry
    simp only [hfind]
    rw [if_pos hne]
  · intro s eid now s2 e2 hok
    obtain ⟨e, gl2, -, -, -, he2, -⟩ := postJournalEntry_ok_elim s eid now s2 e2 hok
    rw [he2]
    exact ⟨rfl, rfl⟩
  · intro s eid now s2 e2 now2 hok
    obtain ⟨e, gl2, hfind, -, -, -, hs2⟩ := postJournalEntry_ok_elim s eid now s2 e2 hok
    have hid : e.id = eid := by simpa using List.find?_some hfind
    have hents : s2.entries.find? (fun x => x.id == eid) =
        some { e with status := JournalEntryStatus.POSTED, posted_at := some now } := by
      rw [hs2]
      have h1 := find?_map_upd (fun x : JournalEntry => x.id)
        (fun _ =>
          { e with
            status := JournalEntryStatus.POSTED
            posted_at := some now })
        eid (fun x hx => hid) s.entries
      simp only []
      rw [h1, hfind]
      rfl
    unfold postJournalEntry
    simp only [hents]
    rw [if_pos (by simp)]

/-- The bank/revenue example entry already `POSTED`. -/
def postedEntryExample : JournalEntry :=
  { id := 10
    status := .POSTED
    total_debit := 1000
    total_credit := 1000
    period_id := 1
    posted_at := some 3
    lines := [⟨1, 1, 1000, 0⟩, ⟨2, 2, 0, 1000⟩] }

/-- A ledger state holding only the already-posted example entry. -/
def postedState : AccState := { ledgerBase with entries := [postedEntryExample] }

/-- Witness for C6: posting an already-POSTED entry fails with the
invalid-state error. -/
theorem postJournalEntry_draft_only_witness :
    postJournalEntry postedState 10 7 = .error .onlyDraftCanBePosted :=
  postJournalEntry_draft_only.1 postedState 10 7 postedEntryExample rfl
    (by decide)

/-- C10: approving a `PENDING` payment commits the approval (status
`CONFIRMED`, approver, timestamp) before the journal-entry step; when the
journal-entry creation fails, the failure is only logged: the call still
returns successfully, and the resulting state and returned payment are
identical to the success case except that no journal entry exists. -/
theorem approvePayment_commits_despite_journal_failure :
    ∀ s pid u now p, s.payments.find? (fun q => q.id == pid) = some p →
      p.status = PaymentStatus.PENDING →
      ∃ s3 q, approvePayment s pid (some u) now true = .ok (s3, [], q) ∧
        approvePayment s pid (some u) now false = .ok (s3, [pid], q) ∧
        q.approved_by_id = some u ∧ q.approved_at = some now ∧
        q.status ≠ PaymentStatus.PENDING := by
  intro s pid u now p hp hst
  have hid : p.id = pid := by simpa using List.find?_some hp
  set ap : Payment :=
    { p with
      status := PaymentStatus.CONFIRMED
      approved_by_id := if (some u : Option Nat).isSome then some u else p.approved_by_id
      approved_at := if (some u : Option Nat).isSome then some now else p.approved_at }
    with hap
  set s2 : PayState :=
    { s with payments := s.payments.map (fun q => if q.id == pid then ap else q) }
    with hs2
  have hfind2 : s2.payments.find? (fun q => q.id == pid) = some ap := by
    rw [hs2]
    have h1 := find?_map_upd (fun q : Payment => q.id) (fun _ => ap) pid
      (fun x hx => hid) s.payments
    simp only []
    rw [h1, hp]
    rfl
  obtain ⟨s4, allocs, hfifo, hfind4, -⟩ :=
    allocatePaymentFifo_spec s2 pid now ap hfind2
  refine ⟨s4,
    { ap with status :=
        if 0 < ap.amount - ((allocs.map (fun a => a.amount)).sum)
        then .PARTIALLY_ALLOCATED else .FULLY_ALLOCATED },
    ?_, ?_, ?_, ?_, ?_⟩
  · unfold approvePayment
    simp only [hp]
    rw [if_neg (by simp [hst])]
    rw [← hap, ← hs2]
    simp only [hfifo, hfind4]
    simp
  · unfold approvePayment
    simp only [hp]
    rw [if_neg (by simp [hst])]
    rw [← hap, ← hs2]
    simp only [hfifo, hfind4]
    simp
  · simp [hap]
  · simp [hap]
  · by_cases hc : 0 < ap.amount - ((allocs.map (fun a => a.amount)).sum)
    · simp only [if_pos hc]
      simp
    · simp only [if_neg hc]
      simp

/-- A pending payment of 5000 for property 100. -/
def pendingPayFive : Payment := ⟨2, 100, 5000, .PENDING, none, none⟩

/-- A state with the pending 5000 payment and the two example invoices. -/
def pendingApprovalState : PayState :=
  { payments := [pendingPayFive], invoices := [invoiceA, invoiceB]
    allocations := [] }

/-- Witness for C10: journal failure still returns the approved payment on
a concrete pending payment. -/
theorem approvePayment_commits_despite_journal_failure_witness :
    ∃ s3 q, approvePayment pendingApprovalState 2 (some 42) 9 true =
        .ok (s3, [], q) ∧
      approvePayment pendingApprovalState 2 (some 42) 9 false =
        .ok (s3, [2], q) ∧
      q.approved_by_id = some 42 ∧ q.approved_at = some 9 ∧
      q.status ≠ PaymentStatus.PENDING :=
  approvePayment_commits_despite_journal_failure pendingApprovalState 2 42 9
    pendingPayFive rfl rfl


/-- `applyToRow` keeps the row keyed and applies exactly the accumulator
mutation the specification describes. -/
theorem applyToRow_eq_spec (bt : BalanceType) (r : GeneralLedger) (d c : ℚ) :
    applyToRow bt r d c = specApplyAccumulator bt r d c := by
  cases bt <;> simp [applyToRow, specApplyAccumulator]

/-- Looking up the touched `(account, period)` key after `glApplyFirst`
always finds the freshly-updated (or freshly-created) row. -/
theorem glFind_glApplyFirst (bt : BalanceType) (aid per : Nat) (d c : ℚ) :
    ∀ gl, glFind (glApplyFirst bt aid per d c gl) aid per =
      some (applyToRow bt ((glFind gl aid per).getD (freshGLRow aid per)) d c)
  | [] => by
    simp [glFind, glApplyFirst, applyToRow, freshGLRow]
  | r :: rs => by
    by_cases hkey : (r.account_id == aid && r.period_id == per) = true
    · simp only [glApplyFirst, hkey, if_true]
      have hkey2 : ((applyToRow bt r d c).account_id == aid &&
          (applyToRow bt r d c).period_id == per) = true := by
        simpa [applyToRow] using hkey
      simp [glFind, List.find?_cons, hkey, hkey2]
    · have hb : (r.account_id == aid && r.period_id == per) = false := by
        simpa using hkey
      simp only [glApplyFirst]
      rw [if_neg hkey]
      simp only [glFind, List.find?_cons, hb, Bool.false_eq_true, cond_false]
      simpa [glFind] using glFind_glApplyFirst bt aid per d c rs

/-- C2: `_update_general_ledger` refines the specification's balance
accumulator: on success the `(account, period)` row was get-or-created
(beginning 0 when fresh) and mutated exactly as `apply` prescribes, with
the ending balance recomputed from the account's normal balance; posting
an entry applies this accumulator to the ledger once per line; and posting
the example entry `[debit Bank 1000, credit Revenue 1000]` leaves both the
DEBIT-normal bank account and the CREDIT-normal revenue account with
ending balance +1000. -/
theorem updateGeneralLedger_matches_spec_accumulator :
    (∀ accounts gl aid per d c gl2,
      updateGeneralLedger accounts gl aid per d c = some gl2 →
      ∃ acct, accounts.find? (fun a => a.id == aid) = some acct ∧
        glFind gl2 aid per = some (specApplyAccumulator acct.balance_type
          ((glFind gl aid per).getD (freshGLRow aid per)) d c)) ∧
    (∀ s eid now s2 e2, postJournalEntry s eid now = .ok (s2, e2) →
      applyLinesToLedger s.accounts e2.period_id e2.lines s.ledger =
        some s2.ledger) ∧
    (glFind (createEntryState ledgerBase midJan bankRevenueLines true 7).ledger
      1 1).map (fun r => r.ending_balance) = some 1000 ∧
    (glFind (createEntryState ledgerBase midJan bankRevenueLines true 7).ledger
      2 1).map (fun r => r.ending_balance) = some 1000 := by
  refine ⟨?_, ?_, ?_, ?_⟩
  · intro accounts gl aid per d c gl2 h
    unfold updateGeneralLedger at h
    cases hfind : accounts.find? (fun a => a.id == aid) with
    | none =>
      rw [hfind] at h
      exact Option.noConfusion h
    | some acct =>
      rw [hfind] at h
      simp only [Option.some.injEq] at h
      refine ⟨acct, rfl, ?_⟩
      rw [← h, glFind_glApplyFirst, applyToRow_eq_spec]
  · intro s eid now s2 e2 hok
    obtain ⟨e, gl2, -, -, happ, he2, hs2⟩ :=
      postJournalEntry_ok_elim s eid now s2 e2 hok
    rw [he2, hs2]
    simpa using happ
  all_goals
    norm_num +decide [createEntryState, createJournalEntry, validateJournalLines,
      bankRevenueLines, ledgerBase, midJan, getCurrentPeriod, postJournalEntry,
      applyLinesToLedger, updateGeneralLedger, glApplyFirst, applyToRow,
      freshGLRow, glFind]

/-- Witness for C2: the accumulator characterization at a concrete update
of a fresh DEBIT-normal account row by a 10-debit. -/
theorem updateGeneralLedger_matches_spec_accumulator_witness :
    ∃ acct,
      ([⟨1, .ASSET, .DEBIT⟩] : List ChartOfAccounts).find?
        (fun a => a.id == 1) = some acct ∧
      glFind [⟨1, 1, 0, 10, 10, 0⟩] 1 1 =
        some (specApplyAccumulator acct.balance_type
          ((glFind [] 1 1).getD (freshGLRow 1 1)) 10 0) :=
  updateGeneralLedger_matches_spec_accumulator.1 [⟨1, .ASSET, .DEBIT⟩] [] 1 1
    10 0 [⟨1, 1, 0, 10, 10, 0⟩]
    (by norm_num [updateGeneralLedger, glApplyFirst, applyToRow, freshGLRow])



/-- The amount component of the score is one of 0.4, 0.3, 0.2, 0. -/
theorem amountScore_nonneg (t : BankTxn) (p : ReconPayment) :
    0 ≤ amountScore t p := by
  unfold amountScore
  dsimp only
  split
  · norm_num
  · split
    · norm_num
    · split <;> norm_num

/-- The date component of the score is one of 0.3, 0.2, 0.1, 0. -/
theorem dateScore_nonneg (t : BankTxn) (p : ReconPayment) :
    0 ≤ dateScore t p := by
  unfold dateScore
  dsimp only
  split
  · norm_num
  · split
    · norm_num
    · split <;> norm_num

/-- The reference component of the score is one of 0.2, 0.1, 0. -/
theorem referenceScore_nonneg (t : BankTxn) (p : ReconPayment) :
    0 ≤ referenceScore t p := by
  unfold referenceScore
  split
  · split
    · norm_num
    · split <;> norm_num
  · norm_num

/-- The description component of the score is non-negative. -/
theorem descriptionScore_nonneg (t : BankTxn) (p : ReconPayment) :
    0 ≤ descriptionScore t p := by
  unfold descriptionScore
  split
  · dsimp only
    split
    · refine mul_nonneg (by norm_num) ?_
      refine div_nonneg ?_ ?_ <;> positivity
    · norm_num
  · norm_num

/-- C8 (amended): the match score is the additive weighted sum of the
amount, date, reference and description components, capped at 1; it always
lies in [0, 1]; a pair with identical amount, date and reference but no
note overlap scores exactly 0.9, and reaching 1.0 additionally requires
the description keywords to coincide completely. -/
theorem matchScore_amended_bounds_and_examples :
    (∀ t p, 0 ≤ calculateMatchScore t p ∧ calculateMatchScore t p ≤ 1) ∧
    calculateMatchScore txnExact payExact = 9/10 ∧
    calculateMatchScore txnExactDesc payExactDesc = 1 := by
  refine ⟨?_, ?_, ?_⟩
  · intro t p
    have h0 : 0 ≤ amountScore t p + dateScore t p + referenceScore t p +
        descriptionScore t p := by
      have h1 := amountScore_nonneg t p
      have h2 := dateScore_nonneg t p
      have h3 := referenceScore_nonneg t p
      have h4 := descriptionScore_nonneg t p
      linarith
    constructor
    · unfold calculateMatchScore pyMin
      split
      · exact h0
      · norm_num
    · unfold calculateMatchScore pyMin
      split
      · assumption
      · norm_num
  · norm_num +decide [calculateMatchScore, amountScore, dateScore,
      referenceScore, descriptionScore, transactionAmount, truthyAmount,
      truthyStr, pyAbs, pyMin, txnExact, payExact]
  · norm_num +decide [calculateMatchScore, amountScore, dateScore,
      referenceScore, descriptionScore, transactionAmount, truthyAmount,
      truthyStr, pyAbs, pyMin, pyWordSet, pyWords, wordsAux, charLower,
      txnExactDesc, payExactDesc]



/-- Invariant analysis of the best-candidate loop: starting from a
threshold-respecting accumulator, a `none` result means every remaining
candidate scores below 0.8, and a `some p` result dominates the
accumulator and every remaining candidate and reaches the threshold. -/
theorem findLoop_spec (t : BankTxn) :
    ∀ ps (best : Option ReconPayment) (bs : ℚ),
      (best = none → bs = 0) →
      (∀ b, best = some b → calculateMatchScore t b = bs ∧ 4/5 ≤ bs) →
      (findLoop t best bs ps = none → best = none ∧
        ∀ q ∈ ps, calculateMatchScore t q < 4/5) ∧
      (∀ p, findLoop t best bs ps = some p →
        4/5 ≤ calculateMatchScore t p ∧ bs ≤ calculateMatchScore t p ∧
        (best = some p ∨ p ∈ ps) ∧
        ∀ q ∈ ps, calculateMatchScore t q ≤ calculateMatchScore t p)
  | [], best, bs => by
    intro h0 hs
    constructor
    · intro h
      exact ⟨h, by simp⟩
    · intro p hp
      obtain ⟨hsc, hge⟩ := hs p hp
      exact ⟨hsc ▸ hge, le_of_eq hsc.symm, Or.inl hp, by simp⟩
  | p2 :: ps, best, bs => by
    intro h0 hs
    by_cases hc : bs < calculateMatchScore t p2 ∧ 4/5 ≤ calculateMatchScore t p2
    · have hrec := findLoop_spec t ps (some p2) (calculateMatchScore t p2)
        (by intro h; exact Option.noConfusion h)
        (by intro b hb
            cases hb
            exact ⟨rfl, hc.2⟩)
      have hstep : findLoop t best bs (p2 :: ps) =
          findLoop t (some p2) (calculateMatchScore t p2) ps := by
        conv_lhs => rw [findLoop]
        rw [if_pos hc]
      constructor
      · intro h
        rw [hstep] at h
        obtain ⟨habs, -⟩ := hrec.1 h
        exact Option.noConfusion habs
      · intro p hp
        rw [hstep] at hp
        obtain ⟨hth, hdom, hmem, hall⟩ := hrec.2 p hp
        refine ⟨hth, le_trans (le_of_lt hc.1) hdom, ?_, ?_⟩
        · cases hmem with
          | inl h =>
            right
            cases h
            exact List.mem_cons_self p2 ps
          | inr h =>
            right
            exact List.mem_cons_of_mem p2 h
        · intro q hq
          cases List.mem_cons.mp hq with
          | inl h =>
            subst h
            exact hdom
          | inr h => exact hall q h
    · have hrec := findLoop_spec t ps best bs h0 hs
      have hstep : findLoop t best bs (p2 :: ps) = findLoop t best bs ps := by
        conv_lhs => rw [findLoop]
        rw [if_neg hc]
      constructor
      · intro h
        rw [hstep] at h
        obtain ⟨hb, hall⟩ := hrec.1 h
        refine ⟨hb, ?_⟩
        intro q hq
        cases List.mem_cons.mp hq with
        | inl hqe =>
          subst hqe
          rcases not_and_or.mp hc with h1 | h1
          · push_neg at h1
            have hbs := h0 hb
            rw [hbs] at h1
            by_contra hcontra
            push_neg at hcontra
            linarith
          · push_neg at h1
            exact h1
        | inr hqm => exact hall q hqm
      · intro p hp
        rw [hstep] at hp
        obtain ⟨hth, hdom, hmem, hall⟩ := hrec.2 p hp
        refine ⟨hth, hdom, ?_, ?_⟩
        · cases hmem with
          | inl h => exact Or.inl h
          | inr h => exact Or.inr (List.mem_cons_of_mem p2 h)
        · intro q hq
          cases List.mem_cons.mp hq with
          | inl hqe =>
            subst hqe
            rcases not_and_or.mp hc with h1 | h1
            · push_neg at h1
              linarith
            · push_neg at h1
              linarith
          | inr hqm => exact hall q hqm

/-- A matched payment comes from the pool, and its score clears 0.8 and
dominates the pool. -/
theorem findMatchingPayment_some (t : BankTxn) (ps : List ReconPayment)
    (p : ReconPayment) (h : findMatchingPayment t ps = some p) :
    p ∈ ps ∧ 4/5 ≤ calculateMatchScore t p ∧
    ∀ q ∈ ps, calculateMatchScore t q ≤ calculateMatchScore t p := by
  have hspec := findLoop_spec t ps none 0 (fun _ => rfl)
    (fun b hb => Option.noConfusion hb)
  obtain ⟨hth, -, hmem, hall⟩ := hspec.2 p h
  cases hmem with
  | inl habs => exact Option.noConfusion habs
  | inr hm => exact ⟨hm, hth, hall⟩

/-- No match is returned exactly when every pool payment scores below
0.8. -/
theorem findMatchingPayment_none (t : BankTxn) (ps : List ReconPayment)
    (h : findMatchingPayment t ps = none) :
    ∀ q ∈ ps, calculateMatchScore t q < 4/5 := by
  have hspec := findLoop_spec t ps none 0 (fun _ => rfl)
    (fun b hb => Option.noConfusion hb)
  exact (hspec.1 h).2

/-- The matched-payment ids assigned by the greedy loop are drawn from the
pool and never repeat: a payment leaves the pool as soon as it is
matched. -/
theorem autoLoop_no_double_match :
    ∀ ts pool, (∀ t ∈ ts, t.matched_payment_id = none) →
      (∀ i ∈ (autoLoop ts pool).1.filterMap (fun t => t.matched_payment_id),
        i ∈ pool.map (fun p => p.id)) ∧
      ((pool.map (fun p => p.id)).Nodup →
        ((autoLoop ts pool).1.filterMap (fun t => t.matched_payment_id)).Nodup)
  | [], pool => by
    intro hts
    simp [autoLoop]
  | t :: ts, pool => by
    intro hts
    have htnone : t.matched_payment_id = none := hts t (List.mem_cons_self t ts)
    have htsrest : ∀ x ∈ ts, x.matched_payment_id = none :=
      fun x hx => hts x (List.mem_cons_of_mem t hx)
    cases hf : findMatchingPayment t pool with
    | none =>
      rcases hrec : autoLoop ts pool with ⟨rest, n⟩
      have hih := autoLoop_no_double_match ts pool htsrest
      rw [hrec] at hih
      have hstep : autoLoop (t :: ts) pool = (t :: rest, n) := by
        rw [autoLoop]
        simp only [hf, hrec]
      rw [hstep]
      simp only [List.filterMap_cons, htnone]
      exact hih
    | some p =>
      have hpmem := (findMatchingPayment_some t pool p hf).1
      rcases hrec : autoLoop ts (pool.filter (fun q => q.id ≠ p.id))
        with ⟨rest, n⟩
      have hih := autoLoop_no_double_match ts
        (pool.filter (fun q => q.id ≠ p.id)) htsrest
      rw [hrec] at hih
      have hstep : autoLoop (t :: ts) pool =
          ({ t with
              matched_payment_id := some p.id
              reconciliation_status := .AUTO_MATCHED
              match_confidence := some (calculateMatchScore t p) } :: rest,
            n + 1) := by
        rw [autoLoop]
        simp only [hf, hrec]
      rw [hstep]
      simp only [List.filterMap_cons]
      have hsubpool : ∀ i,
          i ∈ ((pool.filter (fun q => q.id ≠ p.id)).map (fun q => q.id)) →
          i ∈ pool.map (fun q => q.id) := by
        intro i hi
        obtain ⟨q, hq, hqi⟩ := List.mem_map.mp hi
        exact List.mem_map.mpr ⟨q, List.mem_of_mem_filter hq, hqi⟩
      constructor
      · intro i hi
        simp only [List.mem_cons] at hi
        rcases hi with hi | hi
        · rw [hi]
          exact List.mem_map.mpr ⟨p, hpmem, rfl⟩
        · exact hsubpool i (hih.1 i hi)
      · intro hnd
        have hndsub : ((pool.filter (fun q => q.id ≠ p.id)).map
            (fun q => q.id)).Nodup := by
          have hsub : List.Sublist
              ((pool.filter (fun q => q.id ≠ p.id)).map (fun q => q.id))
              (pool.map (fun q => q.id)) :=
            (List.filter_sublist pool).map (fun q => q.id)
          exact hnd.sublist hsub
        refine List.Nodup.cons ?_ (hih.2 hndsub)
        intro hmem
        have hin := hih.1 p.id hmem
        obtain ⟨q, hq, hqi⟩ := List.mem_map.mp hin
        have hqne : q.id ≠ p.id := by
          have h2 := List.of_mem_filter hq
          simpa using h2
        exact hqne hqi


/-- A debit-only bank transaction (no credit amount): excluded from auto
reconciliation even though its amount/reference would score high. -/
def txnDebit : BankTxn :=
  ⟨4, 0, none, some 2500, some "REF123", "", .UNMATCHED, none, none⟩

/-- C9: auto-reconciliation feeds only unmatched positive-credit
transactions to the greedy matcher; each processed transaction takes the
highest-scoring payment of the still-available pool and is AUTO_MATCHED
only when that score reaches 0.8; a matched payment leaves the pool before
the next transaction, so no payment is ever assigned twice; and the
spec's example — amount within the 1% tolerance but dated 5 days away —
scores 0.2 and is left UNMATCHED, while a debit-only transaction is not
processed at all. -/
theorem autoReconcile_greedy_threshold :
    (∀ t ps p, findMatchingPayment t ps = some p →
      p ∈ ps ∧ 4/5 ≤ calculateMatchScore t p ∧
      ∀ q ∈ ps, calculateMatchScore t q ≤ calculateMatchScore t p) ∧
    (∀ t ps, findMatchingPayment t ps = none →
      ∀ q ∈ ps, calculateMatchScore t q < 4/5) ∧
    (∀ ts pool, (∀ t ∈ ts, t.matched_payment_id = none) →
      (pool.map (fun p => p.id)).Nodup →
      ((autoLoop ts pool).1.filterMap (fun t => t.matched_payment_id)).Nodup) ∧
    calculateMatchScore txnLate payNear = 1/5 ∧
    autoReconcileStatement [txnLate] [payNear] = ([txnLate], 0) ∧
    txnLate.reconciliation_status = ReconStatus.UNMATCHED ∧
    autoReconcileStatement [txnDebit] [payExact] = ([], 0) := by
  refine ⟨findMatchingPayment_some, findMatchingPayment_none,
    fun ts pool h1 h2 => (autoLoop_no_double_match ts pool h1).2 h2,
    ?_, ?_, by decide, by decide⟩
  · norm_num +decide [calculateMatchScore, amountScore, dateScore,
      referenceScore, descriptionScore, transactionAmount, truthyAmount,
      truthyStr, pyAbs, pyMin, txnLate, payNear]
  · norm_num +decide [autoReconcileStatement, autoLoop, findMatchingPayment,
      findLoop, calculateMatchScore, amountScore, dateScore, referenceScore,
      descriptionScore, transactionAmount, truthyAmount, truthyStr, pyAbs,
      pyMin, txnLate, payNear]

/-- Witness for C9: the exact-match pair is found from a singleton pool and
dominates it. -/
theorem autoReconcile_greedy_threshold_witness :
    payExact ∈ [payExact] ∧
    4/5 ≤ calculateMatchScore txnExact payExact ∧
    ∀ q ∈ [payExact],
      calculateMatchScore txnExact q ≤ calculateMatchScore txnExact payExact :=
  autoReconcile_greedy_threshold.1 txnExact [payExact] payExact
    (by norm_num +decide [findMatchingPayment, findLoop, calculateMatchScore,
      amountScore, dateScore, referenceScore, descriptionScore,
      transactionAmount, truthyAmount, truthyStr, pyAbs, pyMin, txnExact,
      payExact])


end SVM
